import Mathlib

/-!
Verification of the todoist-cli core (src/todoist_rich.py) against its
specification.  The Python source is shallowly embedded: pure helper
functions become Lean functions, the Windows Credential Manager store is
modelled as an explicit `Option (List Nat)` byte-blob state threaded
through the read/write/delete operations, and library routines used by
the source (`str.strip`, `bytes.decode`, `datetime.fromisoformat`) are
modelled as executable Lean functions documented at their definitions.
-/

/-- Unicode code points that Python `str.strip()` removes (the characters
for which `str.isspace()` holds: ASCII control whitespace, the C1 NEL,
and the Unicode space separators). -/
def pyIsSpace (c : Char) : Bool :=
  let n := c.toNat
  (9 ≤ n && n ≤ 13) || (28 ≤ n && n ≤ 31) || n == 32 || n == 0x85 || n == 0xA0 ||
  n == 0x1680 || (0x2000 ≤ n && n ≤ 0x200A) || n == 0x2028 || n == 0x2029 ||
  n == 0x202F || n == 0x205F || n == 0x3000

/-- Model of Python `str.strip()` on the character list: drop whitespace
from both ends. -/
def pyStripList (cs : List Char) : List Char :=
  ((cs.dropWhile pyIsSpace).reverse.dropWhile pyIsSpace).reverse

/-- Model of Python `str.strip()`. -/
def pyStrip (s : String) : String :=
  String.mk (pyStripList s.data)

/-- Character-list test that the second list is a leading segment of the
first (Python `str.startswith` on code points). -/
def listLeads : List Char → List Char → Bool
  | _, [] => true
  | [], _ :: _ => false
  | a :: as, b :: bs => a = b && listLeads as bs

/-- Model of Python `s.startswith(p)`. -/
def strStartsWith (s p : String) : Bool :=
  listLeads s.data p.data

/-- Dropping the first `n` code points of a string (Python `s[n:]` via
`split`, see `_normalize_token`). -/
def strDropChars (s : String) (n : Nat) : String :=
  String.mk (s.data.drop n)

/-- Embedding of `_normalize_token` (src/todoist_rich.py lines 231-237):
`None`/empty input gives `None`; otherwise strip surrounding whitespace,
drop one leading prefix that is literally the seven characters of
`Bearer ` or `bearer ` (Python `token.split(" ", 1)[1].strip()` after the
`startswith` test equals dropping those seven characters and stripping),
and map the empty result to `None`. -/
def _normalize_token (token : Option String) : Option String :=
  match token with
  | none => none
  | some t =>
    if t = "" then none
    else
      let t1 := pyStrip t
      let t2 := if strStartsWith t1 ("Bearer ") || strStartsWith t1 ("bearer ")
                then pyStrip (strDropChars t1 7) else t1
      if t2 = "" then none else some t2

/-- UTF-16 code units of one scalar value: BMP characters are one unit,
supplementary characters become a surrogate pair. -/
def utf16Units (c : Char) : List Nat :=
  let v := c.toNat
  if v < 0x10000 then [v]
  else [0xD800 + (v - 0x10000) / 0x400, 0xDC00 + (v - 0x10000) % 0x400]

/-- Little-endian byte pair of one UTF-16 code unit. -/
def unitBytes (u : Nat) : List Nat :=
  [u % 256, u / 256 % 256]

/-- Model of Python `str.encode("utf-16-le")`: code units of every
character, each serialized as two little-endian bytes. -/
def utf16leEncode (s : String) : List Nat :=
  (s.data.flatMap utf16Units).flatMap unitBytes

/-- Byte pairs of the blob recombined into 16-bit code units (an odd
trailing byte yields no unit here; `utf16leDecode` appends the
replacement character for it). -/
def bytesToUnits : List Nat → List Nat
  | [] => []
  | [_] => []
  | b0 :: b1 :: rest => (b0 % 256 + 256 * (b1 % 256)) :: bytesToUnits rest

/-- Test for a UTF-16 high (leading) surrogate code unit. -/
def isHighSur (u : Nat) : Bool := 0xD800 ≤ u && u ≤ 0xDBFF

/-- Test for a UTF-16 low (trailing) surrogate code unit. -/
def isLowSur (u : Nat) : Bool := 0xDC00 ≤ u && u ≤ 0xDFFF

/-- Model of lossy UTF-16LE decoding of a unit sequence, as performed by
Python `bytes.decode("utf-16-le", errors="replace")`: a well-formed
surrogate pair combines into one supplementary character, an unpaired
surrogate becomes U+FFFD, any other unit is itself a character. -/
def decodeUnits : List Nat → List Char
  | [] => []
  | [u1] => if isHighSur u1 || isLowSur u1 then ['�'] else [Char.ofNat u1]
  | u1 :: u2 :: rest =>
    if isHighSur u1 then
      if isLowSur u2 then
        Char.ofNat (0x10000 + (u1 - 0xD800) * 0x400 + (u2 - 0xDC00)) :: decodeUnits rest
      else
        '�' :: decodeUnits (u2 :: rest)
    else if isLowSur u1 then '�' :: decodeUnits (u2 :: rest)
    else Char.ofNat u1 :: decodeUnits (u2 :: rest)

/-- Model of Python `blob.decode("utf-16-le", errors="replace")`: decode
the byte pairs as code units, with a final replacement character when the
blob has an odd trailing byte.  This decoding is total: invalid input is
replaced, never raised on. -/
def utf16leDecode (blob : List Nat) : String :=
  String.mk (decodeUnits (bytesToUnits blob) ++ (if blob.length % 2 = 1 then ['�'] else []))

/-- Structural validity of a UTF-16 code-unit sequence: every surrogate
belongs to a well-formed high-low pair. -/
def unitsValid : List Nat → Bool
  | [] => true
  | [u1] => !(isHighSur u1 || isLowSur u1)
  | u1 :: u2 :: rest =>
    if isHighSur u1 then
      if isLowSur u2 then unitsValid rest else false
    else if isLowSur u1 then false
    else unitsValid (u2 :: rest)

/-- Validity of a byte blob as UTF-16LE: even length and well-formed
surrogate pairing. -/
def utf16leValid (blob : List Nat) : Bool :=
  blob.length % 2 = 0 && unitsValid (bytesToUnits blob)

/-- Errors raised by the credential-store operations (the `RuntimeError`
cases of `_wcm_write_token`). -/
inductive WcmError where
  | storeUnavailable
  | emptyToken
  | alreadyExists
  | writeFailed
deriving DecidableEq, Repr

/-- Embedding of `_wcm_read_token` (src/todoist_rich.py lines 79-132) on
the explicit store state (the platform is assumed to be Windows with an
accessible store, the case the source's fail-soft `except` guards merely
pass through).  A missing entry or empty blob reads as `None`; otherwise
the blob is decoded as UTF-16LE with lossy replacement and normalized.
The source's UTF-8 fallback branch is reachable only if the lossy
UTF-16LE decode raises, which it never does. -/
def _wcm_read_token (store : Option (List Nat)) : Option String :=
  match store with
  | none => none
  | some blob =>
    if blob.length = 0 then none
    else _normalize_token (some (utf16leDecode blob))

/-- Embedding of `_wcm_write_token` (src/todoist_rich.py lines 135-192)
on the explicit store state, for the Windows branch with a functioning
store API: an empty normalized token raises before anything is written; a
readable existing secret without the overwrite flag raises; otherwise the
normalized token is persisted as its UTF-16LE byte blob. -/
def _wcm_write_token (token : String) (overwrite : Bool) (store : Option (List Nat)) :
    Except WcmError (Option (List Nat)) :=
  match _normalize_token (some token) with
  | none => .error .emptyToken
  | some tokenNorm =>
    match _wcm_read_token store with
    | some _ =>
      if overwrite then .ok (some (utf16leEncode tokenNorm))
      else .error .alreadyExists
    | none => .ok (some (utf16leEncode tokenNorm))

/-- Embedding of `_wcm_delete_token` (src/todoist_rich.py lines 195-212):
remove the entry, reporting whether one existed. -/
def _wcm_delete_token (store : Option (List Nat)) : Bool × Option (List Nat) :=
  match store with
  | none => (false, none)
  | some _ => (true, none)

/-- Result of the Python `datetime.fromisoformat` model: broken-down
civil time with an optional fixed UTC offset in minutes (`none` is a
naive datetime). -/
structure PyDatetime where
  year : Nat
  month : Nat
  day : Nat
  hour : Nat
  minute : Nat
  second : Nat
  microsecond : Nat
  tz : Option Int
deriving DecidableEq, Repr

/-- Gregorian leap-year rule, as validated by Python `datetime.date`. -/
def isLeapYear (y : Nat) : Bool :=
  y % 4 = 0 && (y % 100 ≠ 0 || y % 400 = 0)

/-- Days in a month, as validated by Python `datetime.date`. -/
def daysInMonth (y m : Nat) : Nat :=
  if m = 2 then (if isLeapYear y then 29 else 28)
  else if m = 4 || m = 6 || m = 9 || m = 11 then 30
  else 31

/-- Read exactly `n` decimal digits, accumulating their value. -/
def readNDigits : Nat → List Char → Nat → Option (Nat × List Char)
  | 0, cs, acc => some (acc, cs)
  | _ + 1, [], _ => none
  | n + 1, c :: cs, acc =>
    if c.isDigit then readNDigits n cs (acc * 10 + (c.toNat - 48)) else none

/-- Consume one expected character. -/
def expectChar (c : Char) : List Char → Option (List Char)
  | [] => none
  | x :: xs => if x = c then some xs else none

/-- Fractional-second digits after the decimal point: at least one digit,
converted to microseconds (digits beyond six are consumed and
truncated). -/
def parseFracDigits (cs : List Char) : Option (Nat × List Char) :=
  let ds := cs.takeWhile Char.isDigit
  if ds.length = 0 then none
  else
    let kept := ds.take 6
    let micro := (kept.foldl (fun a c => a * 10 + (c.toNat - 48)) 0) * 10 ^ (6 - kept.length)
    some (micro, cs.drop ds.length)

/-- Optional UTC-offset suffix `±HH:MM` at the end of the string; an
empty rest means a naive datetime.  Offset fields are range-checked the
way Python validates them. -/
def parseOffsetEnd : List Char → Option (Option Int)
  | [] => some none
  | c :: r =>
    if c = '+' || c = '-' then do
      let (oh, r1) ← readNDigits 2 r 0
      let r2 ← expectChar (':') r1
      let (om, r3) ← readNDigits 2 r2 0
      if oh ≤ 23 && om ≤ 59 && r3.isEmpty then
        some (some ((if c = '-' then -1 else 1) * ((oh : Int) * 60 + om)))
      else none
    else none

/-- Time-of-day part `HH[:MM[:SS[.ffffff]]]` followed by the optional
offset, consuming the whole remaining string. -/
def parseTimeEnd (cs : List Char) : Option (Nat × Nat × Nat × Nat × Option Int) := do
  let (h, r) ← readNDigits 2 cs 0
  if 23 < h then none
  else
    match r with
    | ':' :: r2 => do
      let (mi, r3) ← readNDigits 2 r2 0
      if 59 < mi then none
      else
        match r3 with
        | ':' :: r4 => do
          let (sec, r5) ← readNDigits 2 r4 0
          if 59 < sec then none
          else
            match r5 with
            | '.' :: r6 => do
              let (us, r7) ← parseFracDigits r6
              let tz ← parseOffsetEnd r7
              pure (h, mi, sec, us, tz)
            | _ => do
              let tz ← parseOffsetEnd r5
              pure (h, mi, sec, 0, tz)
        | _ => do
          let tz ← parseOffsetEnd r3
          pure (h, mi, 0, 0, tz)
    | _ => do
      let tz ← parseOffsetEnd r
      pure (h, 0, 0, 0, tz)

/-- Model of Python `datetime.fromisoformat` on the dashed ISO-8601
subset the source feeds it: `YYYY-MM-DD`, optionally followed by one
separator character (Python accepts any single character there) and
`HH[:MM[:SS[.ffffff]]]`, optionally followed by a `±HH:MM` offset.  Date
and time fields are range-validated; anything else fails with `none`
(Python raises `ValueError`). -/
def pyFromIsoformat (s : String) : Option PyDatetime := do
  let (y, r0) ← readNDigits 4 s.data 0
  let r1 ← expectChar ('-') r0
  let (mo, r2) ← readNDigits 2 r1 0
  let r3 ← expectChar ('-') r2
  let (d, r4) ← readNDigits 2 r3 0
  if y < 1 || mo < 1 || 12 < mo || d < 1 || daysInMonth y mo < d then none
  else
    match r4 with
    | [] => pure ⟨y, mo, d, 0, 0, 0, 0, none⟩
    | _sep :: rt => do
      let (h, mi, sec, us, tz) ← parseTimeEnd rt
      pure ⟨y, mo, d, h, mi, sec, us, tz⟩

/-- Model of Python `value.replace("Z", "+00:00")`: every occurrence of
the character `Z` becomes the six characters `+00:00`. -/
def replaceZ (s : String) : String :=
  String.mk (s.data.flatMap (fun c => if c = 'Z' then ['+', '0', '0', ':', '0', '0'] else [c]))

/-- Zero-padded decimal rendering of width `w`. -/
def pad (w n : Nat) : String :=
  String.mk (List.replicate (w - (toString n).length) '0') ++ toString n

/-- Model of Python `parsed.date().isoformat()`: the `YYYY-MM-DD`
rendering of the civil date carried by the datetime (no offset
conversion). -/
def dtDateIso (dt : PyDatetime) : String :=
  pad 4 dt.year ++ "-" ++ pad 2 dt.month ++ "-" ++ pad 2 dt.day

/-- Days from 1970-01-01 of a civil date (Gregorian), used to compare
datetimes as instants the way Python compares aware datetimes. -/
def daysFromCivil (y m d : Nat) : Int :=
  let yAdj : Int := if m ≤ 2 then (y : Int) - 1 else (y : Int)
  let era : Int := yAdj / 400
  let yoe : Int := yAdj - era * 400
  let mp : Int := ((m : Int) + 9) % 12
  let doy : Int := (153 * mp + 2) / 5 + (d : Int) - 1
  let doe : Int := yoe * 365 + yoe / 4 - yoe / 100 + doy
  era * 146097 + doe - 719468

/-- Microseconds of the naive (wall-clock) value of a datetime. -/
def naiveMicros (dt : PyDatetime) : Int :=
  (daysFromCivil dt.year dt.month dt.day * 86400 +
    (dt.hour : Int) * 3600 + (dt.minute : Int) * 60 + (dt.second : Int)) * 1000000 +
    (dt.microsecond : Int)

/-- The instant of an aware datetime in microseconds (wall-clock value
minus the UTC offset); Python orders aware datetimes by exactly this
quantity.  A naive datetime is treated as offset zero, matching the
source, which attaches UTC to every naive parse before comparing. -/
def instantVal (dt : PyDatetime) : Int :=
  naiveMicros dt - dt.tz.getD 0 * 60000000

/-- Model of `dt.replace(tzinfo=timezone.utc)` applied when `dt.tzinfo is
None` (src/todoist_rich.py lines 644-645). -/
def withUTC (dt : PyDatetime) : PyDatetime :=
  if dt.tz = none then { dt with tz := some 0 } else dt

/-- Model of `datetime.max.replace(tzinfo=timezone.utc)`
(src/todoist_rich.py line 647). -/
def pyDatetimeMax : PyDatetime :=
  ⟨9999, 12, 31, 23, 59, 59, 999999, some 0⟩

/-- The `due` sub-record of a task as consumed by the core: optional
`date`, `datetime` and `string` fields. -/
structure Due where
  date : Option String
  datetime : Option String
  string : Option String
deriving DecidableEq, Repr

/-- A due record with no fields, the value of `task.get("due") or {}`
when `due` is null or missing. -/
def emptyDue : Due := ⟨none, none, none⟩

/-- A task record as consumed by the due-date indexer (named `TaskRec`
because `Task` is taken by a core Lean type). -/
structure TaskRec where
  id : Nat
  content : String
  due : Option Due
  priority : Option Int
  project_id : Option Nat
deriving DecidableEq, Repr

/-- Python truthiness of an optional string field: `None` and the empty
string are falsy. -/
def truthyStr : Option String → Option String
  | none => none
  | some s => if s = "" then none else some s

/-- Embedding of `_get_due_day_key` (src/todoist_rich.py lines 664-676):
a truthy `due.date` is returned literally; otherwise a truthy
`due.datetime` is parsed (after `Z` → `+00:00`) and its calendar date
rendered; parse failure, a falsy `datetime`, or no due record give
`None`. -/
def _get_due_day_key (t : TaskRec) : Option String :=
  let due := t.due.getD emptyDue
  match truthyStr due.date with
  | some d => some d
  | none =>
    match truthyStr due.datetime with
    | none => none
    | some v =>
      match pyFromIsoformat (replaceZ v) with
      | some dt => some (dtDateIso dt)
      | none => none

/-- The two-attempt parse of one due candidate value used by
`_due_sort_value` (src/todoist_rich.py lines 636-642): first with `Z`
replaced by `+00:00`, then the bare string. -/
def parseDueValue (v : String) : Option PyDatetime :=
  match pyFromIsoformat (replaceZ v) with
  | some dt => some dt
  | none => pyFromIsoformat v

/-- One iteration of the candidate loop of `_due_sort_value`: a falsy
value is skipped, a truthy one is parsed and, when parsed, made aware by
attaching UTC to a naive result. -/
def _due_try_value (v : Option String) : Option PyDatetime :=
  match truthyStr v with
  | none => none
  | some s => (parseDueValue s).map withUTC

/-- Embedding of `_due_sort_value` (src/todoist_rich.py lines 630-647):
prefer `due.datetime`, then `due.date`; the first candidate that parses
is the sort value; with no parseable candidate the sort value is
`datetime.max` at UTC. -/
def _due_sort_value (t : TaskRec) : PyDatetime :=
  let due := t.due.getD emptyDue
  match _due_try_value due.datetime with
  | some dt => dt
  | none =>
    match _due_try_value due.date with
    | some dt => dt
    | none => pyDatetimeMax

/-- The comparison ordering used by `entries.sort(key=_due_sort_value)`:
Python compares the key datetimes, and aware datetimes compare by
instant. -/
def _due_le (a b : TaskRec) : Prop :=
  instantVal (_due_sort_value a) ≤ instantVal (_due_sort_value b)

instance decidable_due_le : DecidableRel _due_le := fun a b =>
  inferInstanceAs (Decidable (instantVal (_due_sort_value a) ≤ instantVal (_due_sort_value b)))

instance total_due_le : IsTotal TaskRec _due_le :=
  ⟨fun a b => Int.le_total (instantVal (_due_sort_value a)) (instantVal (_due_sort_value b))⟩

instance trans_due_le : IsTrans TaskRec _due_le :=
  ⟨fun _ _ _ => Int.le_trans⟩

/-- Model of the stable ascending `list.sort(key=_due_sort_value)` calls
in `cmd_upcoming`, `cmd_inbox` and `cmd_project_by_name`: CPython
documents `list.sort` as the stable ascending sort, and the stable
ascending reordering of a list under a total transitive comparison is
unique, so insertion sort computes exactly it. -/
def sortTasksByDue (l : List TaskRec) : List TaskRec :=
  l.insertionSort _due_le

/-- Lookup of a group by key in the insertion-ordered group list that
models the Python dict. -/
def glookup : List (Option String × List TaskRec) → Option String → Option (List TaskRec)
  | [], _ => none
  | g :: gs, k => if g.1 = k then some g.2 else glookup gs k

/-- One `groups.setdefault(key, []).append(task)` step on the
insertion-ordered association list that models the Python dict: the first
entry with the key receives the task, a missing key is appended at the
end. -/
def addToGroups : List (Option String × List TaskRec) → Option String → TaskRec →
    List (Option String × List TaskRec)
  | [], k, t => [(k, [t])]
  | g :: gs, k, t =>
    if g.1 = k then (g.1, g.2 ++ [t]) :: gs else g :: addToGroups gs k t

/-- Embedding of `_group_tasks_by_due_date` (src/todoist_rich.py lines
679-684): every task is appended to the group of its due-day key. -/
def _group_tasks_by_due_date (tasks : List TaskRec) : List (Option String × List TaskRec) :=
  tasks.foldl (fun gs t => addToGroups gs (_get_due_day_key t) t) []

/-- The ambient token-discovery environment: the process environment
variables and the credential-store state. -/
structure SysEnv where
  envVars : String → Option String
  wcmStore : Option (List Nat)

/-- Embedding of `_find_api_token` (src/todoist_rich.py lines 240-262):
the function returns `_wcm_read_token()` on its first statement; the
`.env`-file and token-file chain below that `return` is unreachable, so
the embedded behavior is exactly the store lookup.  Nothing in the
function reads the process environment variables. -/
def _find_api_token (env : SysEnv) : Option String :=
  _wcm_read_token env.wcmStore

/-- Embedding of the credential resolution performed by `_get_headers`
(src/todoist_rich.py lines 265-271): the normalized explicit token if
truthy, else `_find_api_token`; `None` means the source prints an error
and exits. -/
def _get_headers_token (explicit : Option String) (env : SysEnv) : Option String :=
  match _normalize_token explicit with
  | some t => some t
  | none => _find_api_token env

/-- Model of Python `a or b` on optional environment-variable strings
(`None` and the empty string are falsy). -/
def pyOrStr (a b : Option String) : Option String :=
  match a with
  | none => b
  | some s => if s = "" then b else some s

/-- Embedding of the `env_set` computation of `cmd_token status`
(src/todoist_rich.py line 851): whether `TODOIST_API_TOKEN` or
`TODOIST_TOKEN` holds a token that normalizes to a value. -/
def _token_status_env_set (env : SysEnv) : Bool :=
  (_normalize_token (pyOrStr (env.envVars ("TODOIST_API_TOKEN")) (env.envVars ("TODOIST_TOKEN")))).isSome

/-- Model of Python `priority or 1` (`None` and `0` are falsy). -/
def pyOrIntOne : Option Int → Int
  | none => 1
  | some v => if v = 0 then 1 else v

/-- Embedding of the clamp `max(1, min(4, priority or 1))` at
src/todoist_rich.py line 542. -/
def clampPriority (p : Option Int) : Int :=
  max 1 (min 4 (pyOrIntOne p))

/-- The JSON body built by the non-quick-add path of `cmd_add`; a field
is `none` when the source omits the key. -/
structure AddBody where
  content : String
  project_id : Option Int
  label_ids : Option (List Int)
  due_string : Option String
  priority : Option Int
deriving DecidableEq, Repr

/-- Embedding of the request-body construction of `cmd_add`
(src/todoist_rich.py lines 542-552), after the interactive prompts have
produced the final field values: the priority is clamped and always
included; the other optional keys are included when truthy. -/
def cmd_add_body (content : String) (project_id : Option Int) (label_id : Option Int)
    (due_string : Option String) (priority : Option Int) : AddBody :=
  { content := content
    project_id := match project_id with
      | some v => if v = 0 then none else some v
      | none => none
    label_ids := match label_id with
      | some v => if v = 0 then none else some [v]
      | none => none
    due_string := truthyStr due_string
    priority := some (clampPriority priority) }

/-- Continuation-byte test of the UTF-8 lossy decoder model. -/
def utf8Cont (b : Nat) : Bool := 0x80 ≤ b && b ≤ 0xBF

/-- Second-byte constraint of a three-byte UTF-8 sequence (excluding
overlong encodings and surrogates). -/
def utf8SecondOkE (b b1 : Nat) : Bool :=
  if b = 0xE0 then 0xA0 ≤ b1 && b1 ≤ 0xBF
  else if b = 0xED then 0x80 ≤ b1 && b1 ≤ 0x9F
  else utf8Cont b1

/-- Second-byte constraint of a four-byte UTF-8 sequence (excluding
overlong encodings and values beyond U+10FFFF). -/
def utf8SecondOkF (b b1 : Nat) : Bool :=
  if b = 0xF0 then 0x90 ≤ b1 && b1 ≤ 0xBF
  else if b = 0xF4 then 0x80 ≤ b1 && b1 ≤ 0x8F
  else utf8Cont b1

/-- One step of the UTF-8 lossy decoder model: decode one character (or
one replacement character for an invalid lead or malformed sequence) and
return the remaining bytes; always consumes at least the first byte. -/
def utf8Step : List Nat → Char × List Nat
  | [] => ('�', [])
  | b :: rest =>
    if b ≤ 0x7F then (Char.ofNat b, rest)
    else if 0xC2 ≤ b && b ≤ 0xDF then
      match rest with
      | b1 :: r1 =>
        if utf8Cont b1 then (Char.ofNat ((b - 0xC0) * 0x40 + (b1 - 0x80)), r1)
        else ('�', rest)
      | [] => ('�', [])
    else if 0xE0 ≤ b && b ≤ 0xEF then
      match rest with
      | b1 :: b2 :: r2 =>
        if utf8SecondOkE b b1 && utf8Cont b2 then
          (Char.ofNat ((b - 0xE0) * 0x1000 + (b1 - 0x80) * 0x40 + (b2 - 0x80)), r2)
        else ('�', rest)
      | _ => ('�', rest)
    else if 0xF0 ≤ b && b ≤ 0xF4 then
      match rest with
      | b1 :: b2 :: b3 :: r3 =>
        if utf8SecondOkF b b1 && utf8Cont b2 && utf8Cont b3 then
          (Char.ofNat ((b - 0xF0) * 0x40000 + (b1 - 0x80) * 0x1000 + (b2 - 0x80) * 0x40 + (b3 - 0x80)), r3)
        else ('�', rest)
      | _ => ('�', rest)
    else ('�', rest)

/-- Fuel-driven driver of the UTF-8 lossy decoder model; the fuel is the
byte count, and every step consumes at least one byte. -/
def utf8Go : Nat → List Nat → List Char
  | 0, _ => []
  | _ + 1, [] => []
  | fuel + 1, b :: rest =>
    let s := utf8Step (b :: rest)
    s.1 :: utf8Go fuel s.2

/-- Model of Python `blob.decode("utf-8", errors="replace")` (a model of
the lossy replacement behavior; exact replacement granularity of CPython
may differ on multi-byte garbage, which no claim depends on). -/
def utf8DecodeLossy (blob : List Nat) : String :=
  String.mk (utf8Go blob.length blob)

/-- Formalization of the SPEC's description of secret-blob decoding (the
behavior claimed in the specification): attempt UTF-16LE first and, for
a blob invalid as UTF-16LE, fall back to UTF-8 with lossy replacement.
This follows the spec's words and exists to be compared with the
embedded `_wcm_read_token`. -/
def wcmReadSpecDecode (blob : List Nat) : String :=
  if utf16leValid blob then utf16leDecode blob else utf8DecodeLossy blob

/-- An environment-variable assignment holding a Todoist token, used to
exhibit the behavior of credential resolution under `TODOIST_API_TOKEN`. -/
def exEnvVars : String → Option String :=
  fun n => if n = "TODOIST_API_TOKEN" then some ("abc123") else none

/-- Task with due datetime 2024-05-01T08:00:00Z (task A of the spec's
stability example). -/
def exTaskA8 : TaskRec :=
  ⟨1, "A", some ⟨none, some ("2024-05-01T08:00:00Z"), none⟩, none, none⟩

/-- Task with due datetime 2024-05-01T09:00:00Z (task B of the spec's
stability example). -/
def exTaskB8 : TaskRec :=
  ⟨2, "B", some ⟨none, some ("2024-05-01T09:00:00Z"), none⟩, none, none⟩

/-- Task whose only due candidate is the unparseable string
`not-a-date`. -/
def exTaskBad : TaskRec :=
  ⟨3, "bad", some ⟨none, some ("not-a-date"), none⟩, none, none⟩

/-- A second task with an unparseable due candidate, for tie cases. -/
def exTaskBad2 : TaskRec :=
  ⟨4, "bad2", some ⟨none, some ("also-bad"), none⟩, none, none⟩

/-- Task in due-day group `tomorrow` whose `due.datetime` is the
unparseable `not-a-date` and whose `due.date` is the unparseable literal
`tomorrow`: no candidate parses, so its sort value is the sentinel. -/
def exTaskTomorrowBad : TaskRec :=
  ⟨5, "tmr", some ⟨some ("tomorrow"), some ("not-a-date"), none⟩, none, none⟩

/-- Task in due-day group `tomorrow` with the valid due datetime
`9999-12-31T23:59:59-01:00`, whose instant lies beyond `datetime.max`
at UTC. -/
def exTaskTomorrowLate : TaskRec :=
  ⟨6, "late", some ⟨some ("tomorrow"), some ("9999-12-31T23:59:59-01:00"), none⟩, none, none⟩

/-! Theorems: helper lemmas first, then one theorem per claim with
its witness or counterexample. -/

/-! Helper lemmas about the UTF-16LE codec and token normalization. -/

theorem char_toNat_lt (c : Char) : c.toNat < 0x110000 := by
  rcases c.valid with h | h
  · exact Nat.lt_trans h (by norm_num)
  · exact h.2

theorem char_toNat_not_sur (c : Char) : c.toNat < 0xD800 ∨ 0xDFFF < c.toNat := by
  rcases c.valid with h | h
  · exact Or.inl h
  · exact Or.inr h.1

theorem isHighSur_false (u : Nat) (h : u < 0xD800 ∨ 0xDBFF < u) : isHighSur u = false := by
  simp [isHighSur]; omega

theorem isLowSur_false (u : Nat) (h : u < 0xDC00 ∨ 0xDFFF < u) : isLowSur u = false := by
  simp [isLowSur]; omega

theorem decodeUnits_pair (hi lo : Nat) (hh : isHighSur hi = true) (hl : isLowSur lo = true)
    (rest : List Nat) :
    decodeUnits (hi :: lo :: rest) =
      Char.ofNat (0x10000 + (hi - 0xD800) * 0x400 + (lo - 0xDC00)) :: decodeUnits rest := by
  simp [decodeUnits, hh, hl]

theorem decodeUnits_bmp (u : Nat) (hh : isHighSur u = false) (hl : isLowSur u = false)
    (rest : List Nat) :
    decodeUnits (u :: rest) = Char.ofNat u :: decodeUnits rest := by
  cases rest with
  | nil => simp [decodeUnits, hh, hl]
  | cons r rs => simp [decodeUnits, hh, hl]

theorem utf16Units_lt (c : Char) : ∀ u ∈ utf16Units c, u < 65536 := by
  intro u hu
  have hv := char_toNat_lt c
  unfold utf16Units at hu
  by_cases hb : c.toNat < 65536
  · simp [hb] at hu; omega
  · simp [hb] at hu
    rcases hu with h | h <;> omega

theorem bytesToUnits_pair (u : Nat) (h : u < 65536) (rest : List Nat) :
    bytesToUnits (unitBytes u ++ rest) = u :: bytesToUnits rest := by
  simp [unitBytes, bytesToUnits]
  omega

theorem bytesToUnits_flat (us : List Nat) (h : ∀ u ∈ us, u < 65536) :
    bytesToUnits (us.flatMap unitBytes) = us := by
  induction us with
  | nil => rfl
  | cons u rest ih =>
    rw [List.flatMap_cons, bytesToUnits_pair u (h u (by simp)) _,
      ih (fun v hv => h v (by simp [hv]))]

theorem flatMap_unitBytes_length (us : List Nat) :
    (us.flatMap unitBytes).length = 2 * us.length := by
  induction us with
  | nil => rfl
  | cons u rest ih => simp [List.flatMap_cons, unitBytes, ih]; omega

theorem decodeUnits_units (c : Char) (rest : List Nat) :
    decodeUnits (utf16Units c ++ rest) = c :: decodeUnits rest := by
  have hns := char_toNat_not_sur c
  have hlt := char_toNat_lt c
  unfold utf16Units
  by_cases hb : c.toNat < 65536
  · simp only [hb, if_true, List.cons_append, List.nil_append]
    rw [decodeUnits_bmp _ (isHighSur_false _ (by omega)) (isLowSur_false _ (by omega)),
      Char.ofNat_toNat]
  · simp only [hb, if_false, List.cons_append, List.nil_append]
    rw [decodeUnits_pair _ _ (by simp [isHighSur]; omega) (by simp [isLowSur]; omega)]
    have harith : 0x10000 + (0xD800 + (c.toNat - 0x10000) / 0x400 - 0xD800) * 0x400 +
        (0xDC00 + (c.toNat - 0x10000) % 0x400 - 0xDC00) = c.toNat := by
      omega
    rw [harith, Char.ofNat_toNat]

theorem decodeUnits_encode (cs : List Char) :
    decodeUnits (cs.flatMap utf16Units) = cs := by
  induction cs with
  | nil => simp [decodeUnits]
  | cons c rest ih => rw [List.flatMap_cons, decodeUnits_units, ih]

theorem utf16le_roundtrip (s : String) : utf16leDecode (utf16leEncode s) = s := by
  unfold utf16leEncode utf16leDecode
  have hlen : ((s.data.flatMap utf16Units).flatMap unitBytes).length % 2 = 0 := by
    rw [flatMap_unitBytes_length]; omega
  rw [bytesToUnits_flat _ (by
    intro u hu
    rcases List.mem_flatMap.1 hu with ⟨c, _, hc⟩
    exact utf16Units_lt c u hc)]
  rw [decodeUnits_encode]
  rw [if_neg (by omega : ¬ ((s.data.flatMap utf16Units).flatMap unitBytes).length % 2 = 1)]
  simp

theorem normalize_token_ne_some_empty (t : Option String) :
    _normalize_token t ≠ some ("") := by
  intro h
  match t with
  | none => exact Option.noConfusion h
  | some s =>
    simp only [_normalize_token] at h
    by_cases h0 : s = ""
    · rw [if_pos h0] at h; exact Option.noConfusion h
    · rw [if_neg h0] at h
      by_cases h1 : (if strStartsWith (pyStrip s) ("Bearer ") || strStartsWith (pyStrip s) ("bearer ")
          then pyStrip (strDropChars (pyStrip s) 7) else pyStrip s) = ""
      · rw [if_pos h1] at h; exact Option.noConfusion h
      · rw [if_neg h1] at h
        exact h1 (Option.some.inj h)

theorem normalize_token_result_ne_empty (t : Option String) (c : String)
    (h : _normalize_token t = some c) : c ≠ "" := by
  intro hc
  exact normalize_token_ne_some_empty t (hc ▸ h)

theorem utf16leEncode_ne_nil (c : String) (h : c ≠ "") : utf16leEncode c ≠ [] := by
  unfold utf16leEncode
  have hd : c.data ≠ [] := by
    intro hnil
    exact h (String.ext hnil)
  match hc : c.data with
  | [] => exact absurd hc hd
  | a :: as =>
    rw [List.flatMap_cons]
    unfold utf16Units
    by_cases hb : a.toNat < 65536 <;>
      simp [hb, List.flatMap_cons, unitBytes]

theorem wcm_read_of_encode (c : String) (hcne : c ≠ "") :
    _wcm_read_token (some (utf16leEncode c)) = _normalize_token (some c) := by
  simp only [_wcm_read_token]
  rw [if_neg (by
    intro hlen
    exact utf16leEncode_ne_nil c hcne (List.length_eq_zero.1 hlen))]
  rw [utf16le_roundtrip]

/-- C5 counterexample: the trimmed input `BEARER abc` starts with the
upper-case casing `BEARER ` of the prefix, yet `_normalize_token` does
not remove it, contradicting case-insensitive stripping, which would
produce `abc`. -/
theorem normalize_token_case_cx :
    _normalize_token (some ("BEARER abc")) = some ("BEARER abc") ∧
    _normalize_token (some ("BEARER abc")) ≠ some ("abc") := by
  exact ⟨by decide, by decide⟩

/-- C5 (amended): `_normalize_token` trims surrounding whitespace, strips
one leading prefix written exactly `Bearer ` or `bearer ` (no other
casing), and returns `None` exactly when the result is empty — witnessed
by never returning `some ""` and by the evaluations on representative
inputs, including the unstripped `BEARER ` casing. -/
theorem normalize_token_amended :
    (∀ s, _normalize_token (some s) ≠ some ("")) ∧
    _normalize_token (some ("  Bearer abc123  ")) = some ("abc123") ∧
    _normalize_token (some ("bearer tok")) = some ("tok") ∧
    _normalize_token (some ("BEARER abc")) = some ("BEARER abc") ∧
    _normalize_token (some ("   ")) = none ∧
    _normalize_token none = none := by
  exact ⟨fun s => normalize_token_ne_some_empty (some s), by decide, by decide, by decide,
    by decide, rfl⟩

/-- C5 witness: the amended theorem applied at the concrete input `x`. -/
theorem normalize_token_amended_witness :
    _normalize_token (some ("x")) ≠ some ("") :=
  normalize_token_amended.1 ("x")

/-- C3: storing the credential `Bearer abc123` in an empty store
normalizes it to `abc123`, persists its UTF-16LE blob, and reading the
store back yields `abc123`. -/
theorem wcm_token_roundtrip :
    _wcm_write_token ("Bearer abc123") false none =
      Except.ok (some (utf16leEncode ("abc123"))) ∧
    _wcm_read_token (some (utf16leEncode ("abc123"))) = some ("abc123") := by
  constructor
  · rfl
  · decide

/-- C7 counterexample: the one-byte blob `0x61` is invalid as UTF-16LE,
and the claimed UTF-8 fallback would read it as `a`; the code instead
decodes it as UTF-16LE with replacement, reading `U+FFFD`. -/
theorem wcm_read_fallback_cx :
    utf16leValid [0x61] = false ∧
    _wcm_read_token (some [0x61]) = some ("�") ∧
    _normalize_token (some (wcmReadSpecDecode [0x61])) = some ("a") ∧
    some ("�") ≠ some ("a") := by
  exact ⟨rfl, by decide, by decide, by decide⟩

/-- A UTF-16 code-unit sequence that is not well formed decodes, under
the lossy decoder, to a character list containing U+FFFD. -/
theorem fffd_mem_decodeUnits (us : List Nat) (h : unitsValid us = false) :
    ('�' : Char) ∈ decodeUnits us := by
  induction us using unitsValid.induct with
  | case1 => exact absurd h (by simp [unitsValid])
  | case2 u1 =>
    simp only [unitsValid, Bool.not_eq_false'] at h
    simp [decodeUnits, h]
  | case3 u1 u2 rest hh hl ih =>
    simp only [unitsValid, hh, hl, if_true] at h
    rw [decodeUnits_pair u1 u2 hh hl]
    exact List.mem_cons_of_mem _ (ih h)
  | case4 u1 u2 rest hh hl =>
    simp only [decodeUnits, hh, hl, if_true, if_false]
    exact List.mem_cons_self _ _
  | case5 u1 u2 rest hh hl =>
    simp only [decodeUnits, hh, hl, if_true, if_false]
    exact List.mem_cons_self _ _
  | case6 u1 u2 rest hh hl ih =>
    simp only [unitsValid, hh, hl, if_false] at h
    rw [decodeUnits_bmp u1 (by simpa using hh) (by simpa using hl)]
    exact List.mem_cons_of_mem _ (ih h)

/-- C7 (amended): reading a nonempty stored blob always decodes it as
UTF-16LE with lossy replacement and normalizes the result — the UTF-8
fallback branch is unreachable because the lossy UTF-16LE decode never
raises — and a blob whose unit sequence is invalid UTF-16 yields
replacement characters rather than a UTF-8 reading. -/
theorem wcm_read_lossy_utf16_amended (blob : List Nat) (hne : blob ≠ []) :
    _wcm_read_token (some blob) = _normalize_token (some (utf16leDecode blob)) ∧
    (unitsValid (bytesToUnits blob) = false →
      ('�' : Char) ∈ (utf16leDecode blob).data) := by
  constructor
  · simp only [_wcm_read_token]
    rw [if_neg (by
      intro hlen
      exact hne (List.length_eq_zero.1 hlen))]
  · intro hv
    unfold utf16leDecode
    exact List.mem_append_left _ (fffd_mem_decodeUnits _ hv)

/-- C7 witness: the amended theorem applied to the concrete invalid blob
`[0x61]`. -/
theorem wcm_read_lossy_utf16_amended_witness :
    _wcm_read_token (some [0x61]) = _normalize_token (some (utf16leDecode [0x61])) ∧
    (unitsValid (bytesToUnits [0x61]) = false →
      ('�' : Char) ∈ (utf16leDecode [0x61]).data) :=
  wcm_read_lossy_utf16_amended [0x61] (by decide)

/-- C4: on a store whose read yields an existing secret, writing without
the overwrite flag fails with `AlreadyExists`; writing with the flag
succeeds, persisting the normalized credential, and a subsequent read
returns it; and a credential that normalizes to empty fails with the
empty-token error under either flag, without writing. -/
theorem wcm_write_semantics (st : Option (List Nat)) (cred c existing cred2 : String)
    (ov : Bool)
    (hc : _normalize_token (some cred) = some c)
    (hfix : _normalize_token (some c) = some c)
    (hread : _wcm_read_token st = some existing)
    (hempty : _normalize_token (some cred2) = none) :
    _wcm_write_token cred false st = Except.error WcmError.alreadyExists ∧
    _wcm_write_token cred true st = Except.ok (some (utf16leEncode c)) ∧
    _wcm_read_token (some (utf16leEncode c)) = some c ∧
    _wcm_write_token cred2 ov st = Except.error WcmError.emptyToken := by
  refine ⟨?_, ?_, ?_, ?_⟩
  · simp only [_wcm_write_token, hc, hread]; rfl
  · simp only [_wcm_write_token, hc, hread]; rfl
  · rw [wcm_read_of_encode c (normalize_token_result_ne_empty _ _ hc), hfix]
  · simp only [_wcm_write_token, hempty]

/-- C4 witness: the write semantics at a store holding the secret `old`,
the credential `abc123`, and the empty credential `   `. -/
theorem wcm_write_semantics_witness :
    _wcm_write_token ("abc123") false (some (utf16leEncode ("old"))) =
      Except.error WcmError.alreadyExists ∧
    _wcm_write_token ("abc123") true (some (utf16leEncode ("old"))) =
      Except.ok (some (utf16leEncode ("abc123"))) ∧
    _wcm_read_token (some (utf16leEncode ("abc123"))) = some ("abc123") ∧
    _wcm_write_token ("   ") false (some (utf16leEncode ("old"))) =
      Except.error WcmError.emptyToken :=
  wcm_write_semantics (some (utf16leEncode ("old"))) ("abc123") ("abc123") ("old") ("   ")
    false (by decide) (by decide) (by decide) (by decide)

/-- C6: credential resolution in `_get_headers` consults only the
explicit token and the credential store; for every environment-variable
assignment it ignores the environment, so with no explicit token and an
empty store it fails even when `TODOIST_API_TOKEN` holds `abc123` — an
environment the source's own `token status` command reports as
configured. -/
theorem env_token_ignored :
    (∀ (f : String → Option String) (st : Option (List Nat)),
      _get_headers_token none ⟨f, st⟩ = _wcm_read_token st) ∧
    _token_status_env_set ⟨exEnvVars, none⟩ = true ∧
    _get_headers_token none ⟨exEnvVars, none⟩ = none := by
  exact ⟨fun f st => rfl, by decide, rfl⟩

/-- C1: the due-day key of a task is its literal truthy `due.date` when
present (regardless of `due.datetime`); with no truthy `date`, it is the
rendered calendar date of the parsed `due.datetime` (`Z` normalized to
`+00:00`), absent exactly on parse failure or a falsy `datetime`; and a
task with no due record has no key. -/
theorem due_day_key_spec (t : TaskRec) :
    (t.due = none → _get_due_day_key t = none) ∧
    (∀ due, t.due = some due →
      (∀ d, due.date = some d → d ≠ "" → _get_due_day_key t = some d) ∧
      (truthyStr due.date = none →
        _get_due_day_key t =
          (truthyStr due.datetime).bind
            (fun v => (pyFromIsoformat (replaceZ v)).map dtDateIso))) := by
  constructor
  · intro h
    simp [_get_due_day_key, h, emptyDue, truthyStr]
  · intro due hdue
    constructor
    · intro d hd hne
      simp [_get_due_day_key, hdue, truthyStr, hd, hne]
    · intro htr
      simp only [_get_due_day_key, hdue, Option.getD_some, htr]
      cases hdt : truthyStr due.datetime with
      | none => simp
      | some v =>
        cases hp : pyFromIsoformat (replaceZ v) with
        | none => simp [hp]
        | some dt => simp [hp]

/-- C1 witness: the key of a task with only
`due.datetime = 2024-05-01T09:00:00Z` is computed by the datetime branch
and equals `2024-05-01`. -/
theorem due_day_key_spec_witness :
    _get_due_day_key ⟨1, "t", some ⟨none, some ("2024-05-01T09:00:00Z"), none⟩, none, none⟩ =
      (truthyStr (some ("2024-05-01T09:00:00Z"))).bind
        (fun v => (pyFromIsoformat (replaceZ v)).map dtDateIso) ∧
    (truthyStr (some ("2024-05-01T09:00:00Z"))).bind
        (fun v => (pyFromIsoformat (replaceZ v)).map dtDateIso) = some ("2024-05-01") := by
  constructor
  · exact ((due_day_key_spec
      ⟨1, "t", some ⟨none, some ("2024-05-01T09:00:00Z"), none⟩, none, none⟩).2
      ⟨none, some ("2024-05-01T09:00:00Z"), none⟩ rfl).2 rfl
  · decide

/-- C2 counterexample: in the due-day group `tomorrow`, the task with the
valid due datetime `9999-12-31T23:59:59-01:00` (an instant past
`datetime.max` at UTC) sorts after the task whose candidates `not-a-date`
and `tomorrow` are both unparseable, so the unparseable task does not
sort after every task with a valid due instant. -/
theorem due_sort_unparseable_cx :
    _get_due_day_key exTaskTomorrowBad = some ("tomorrow") ∧
    _get_due_day_key exTaskTomorrowLate = some ("tomorrow") ∧
    _due_sort_value exTaskTomorrowBad = pyDatetimeMax ∧
    (parseDueValue ("9999-12-31T23:59:59-01:00")).isSome = true ∧
    instantVal (_due_sort_value exTaskTomorrowBad) <
      instantVal (_due_sort_value exTaskTomorrowLate) ∧
    sortTasksByDue [exTaskTomorrowLate, exTaskTomorrowBad] =
      [exTaskTomorrowBad, exTaskTomorrowLate] := by
  exact ⟨rfl, rfl, rfl, rfl, by decide, by decide⟩

/-- C2 (amended): a task with no parseable due candidate receives the
maximal sort value `datetime.max` at UTC, and sorts after every task
whose due instant is strictly below that sentinel. -/
theorem due_sort_unparseable_amended (a b : TaskRec)
    (hb1 : _due_try_value ((b.due.getD emptyDue).datetime) = none)
    (hb2 : _due_try_value ((b.due.getD emptyDue).date) = none)
    (ha : instantVal (_due_sort_value a) < instantVal pyDatetimeMax) :
    _due_sort_value b = pyDatetimeMax ∧
    instantVal (_due_sort_value a) < instantVal (_due_sort_value b) := by
  have hbv : _due_sort_value b = pyDatetimeMax := by
    simp only [_due_sort_value, hb1, hb2]
  exact ⟨hbv, by rw [hbv]; exact ha⟩

/-- C2 witness: the amended theorem at the concrete pair of an
8 o'clock task and the unparseable task. -/
theorem due_sort_unparseable_amended_witness :
    _due_sort_value exTaskBad = pyDatetimeMax ∧
    instantVal (_due_sort_value exTaskA8) < instantVal (_due_sort_value exTaskBad) :=
  due_sort_unparseable_amended exTaskA8 exTaskBad rfl rfl (by decide)

/-- C8: the within-group sort is the stable ascending sort by due sort
value: the fetch order `[B, A]` of the spec's example sorts to `[A, B]`;
the sorted list is a permutation, sorted by the comparison; and any two
tasks with equal sort values keep their fetch order. -/
theorem sort_within_group_stable :
    sortTasksByDue [exTaskB8, exTaskA8] = [exTaskA8, exTaskB8] ∧
    (∀ l : List TaskRec, (sortTasksByDue l).Perm l ∧
      List.Sorted _due_le (sortTasksByDue l)) ∧
    (∀ (a b : TaskRec) (l : List TaskRec),
      instantVal (_due_sort_value a) = instantVal (_due_sort_value b) →
      [a, b].Sublist l → [a, b].Sublist (sortTasksByDue l)) := by
  refine ⟨by decide,
    fun l => ⟨List.perm_insertionSort _ l, List.sorted_insertionSort _ l⟩, ?_⟩
  intro a b l heq hsub
  exact List.pair_sublist_insertionSort (le_of_eq heq) hsub

/-- C8 witness: two tied unparseable tasks keep their fetch order inside
a sorted three-task list. -/
theorem sort_within_group_stable_witness :
    [exTaskBad, exTaskBad2].Sublist (sortTasksByDue [exTaskA8, exTaskBad, exTaskBad2]) :=
  sort_within_group_stable.2.2 exTaskBad exTaskBad2 [exTaskA8, exTaskBad, exTaskBad2] rfl
    (List.sublist_cons_self _ _)

theorem glookup_add_self (gs : List (Option String × List TaskRec)) (k : Option String)
    (t : TaskRec) :
    ∃ ts, glookup (addToGroups gs k t) k = some ts ∧ t ∈ ts := by
  induction gs with
  | nil => exact ⟨[t], by simp [addToGroups, glookup], by simp⟩
  | cons g gs ih =>
    by_cases h : g.1 = k
    · exact ⟨g.2 ++ [t], by simp [addToGroups, glookup, h], by simp⟩
    · rcases ih with ⟨ts, hts, hmem⟩
      exact ⟨ts, by simp [addToGroups, glookup, h, hts], hmem⟩

theorem glookup_add_preserve (gs : List (Option String × List TaskRec))
    (k k0 : Option String) (t : TaskRec) (ts0 : List TaskRec)
    (h : glookup gs k0 = some ts0) :
    ∃ ts, glookup (addToGroups gs k t) k0 = some ts ∧ ts0 ⊆ ts := by
  induction gs with
  | nil => exact absurd h (by simp [glookup])
  | cons g gs ih =>
    by_cases hgk : g.1 = k
    · by_cases hk0 : g.1 = k0
      · have hkk : k = k0 := hgk.symm.trans hk0
        subst hkk
        refine ⟨g.2 ++ [t], ?_, ?_⟩
        · simp [addToGroups, glookup, hgk]
        · simp only [glookup, if_pos hk0] at h
          exact (Option.some.inj h) ▸ List.subset_append_left _ _
      · have hkk : ¬ k = k0 := fun he => hk0 (hgk.trans he)
        refine ⟨ts0, ?_, List.Subset.refl _⟩
        simp only [glookup, if_neg hk0] at h
        simp [addToGroups, glookup, hgk, hk0, hkk, h]
    · by_cases hk0 : g.1 = k0
      · have hkk : ¬ k0 = k := fun he => hgk (hk0.trans he)
        refine ⟨g.2, ?_, ?_⟩
        · simp [addToGroups, glookup, hgk, hk0, hkk]
        · simp only [glookup, if_pos hk0] at h
          exact (Option.some.inj h) ▸ List.Subset.refl _
      · simp only [glookup, if_neg hk0] at h
        rcases ih h with ⟨ts, hts, hsub⟩
        exact ⟨ts, by simp [addToGroups, glookup, hgk, hk0, hts], hsub⟩

theorem grouping_foldl_mem (l : List TaskRec) (gs : List (Option String × List TaskRec))
    (t : TaskRec)
    (h : t ∈ l ∨ ∃ ts0, glookup gs (_get_due_day_key t) = some ts0 ∧ t ∈ ts0) :
    ∃ ts, glookup (l.foldl (fun acc x => addToGroups acc (_get_due_day_key x) x) gs)
        (_get_due_day_key t) = some ts ∧ t ∈ ts := by
  induction l generalizing gs with
  | nil =>
    rcases h with h | h
    · exact absurd h (List.not_mem_nil t)
    · exact h
  | cons x l ih =>
    rw [List.foldl_cons]
    apply ih
    rcases h with hmem | ⟨ts0, hts0, hmem0⟩
    · rcases List.mem_cons.1 hmem with heq | hmem
      · subst heq
        exact Or.inr (glookup_add_self gs (_get_due_day_key t) t)
      · exact Or.inl hmem
    · rcases glookup_add_preserve gs (_get_due_day_key x) (_get_due_day_key t) x ts0 hts0
        with ⟨ts, hts, hsub⟩
      exact Or.inr ⟨ts, hts, hsub hmem0⟩

/-- C9: the indexer is total — every task of the input list is placed in
the group looked up by its derived due-day key (in particular a task with
key `None` lands in the undated group), and a task none of whose due
candidates parses receives the maximal sort value, i.e. the last sort
position; key derivation, grouping and sort-value computation are total
functions of the task record. -/
theorem indexer_total_safe (tasks : List TaskRec) (t : TaskRec) (ht : t ∈ tasks) :
    (∃ ts, glookup (_group_tasks_by_due_date tasks) (_get_due_day_key t) = some ts ∧
      t ∈ ts) ∧
    (_due_try_value ((t.due.getD emptyDue).datetime) = none →
      _due_try_value ((t.due.getD emptyDue).date) = none →
      _due_sort_value t = pyDatetimeMax) := by
  constructor
  · exact grouping_foldl_mem tasks [] t (Or.inl ht)
  · intro h1 h2
    simp only [_due_sort_value, h1, h2]

/-- C9 witness: the single unparseable task lands in the undated group
and carries the maximal sort value. -/
theorem indexer_total_safe_witness :
    (∃ ts, glookup (_group_tasks_by_due_date [exTaskBad]) (_get_due_day_key exTaskBad) =
      some ts ∧ exTaskBad ∈ ts) ∧
    (_due_try_value ((exTaskBad.due.getD emptyDue).datetime) = none →
      _due_try_value ((exTaskBad.due.getD emptyDue).date) = none →
      _due_sort_value exTaskBad = pyDatetimeMax) :=
  indexer_total_safe [exTaskBad] exTaskBad (by simp)

/-- C10: the request body of the non-quick-add creation path always
carries the clamped priority: it lies in `1..4`, a missing or zero
priority becomes `1`, and any value above `4` becomes `4`. -/
theorem add_body_priority_clamped (content : String) (pj lb : Option Int)
    (due : Option String) (p : Option Int) :
    (cmd_add_body content pj lb due p).priority = some (clampPriority p) ∧
    1 ≤ clampPriority p ∧ clampPriority p ≤ 4 ∧
    clampPriority none = 1 ∧ clampPriority (some 0) = 1 ∧
    (∀ v : Int, 4 < v → clampPriority (some v) = 4) := by
  refine ⟨rfl, le_max_left _ _, max_le (by norm_num) (min_le_left _ _), by decide, by decide, ?_⟩
  intro v hv
  simp only [clampPriority, pyOrIntOne]
  rw [if_neg (by omega : ¬ v = 0)]
  rw [min_eq_left (by omega : (4 : Int) ≤ v), max_eq_right (by norm_num : (1 : Int) ≤ 4)]

/-- C10 witness: the clamp at priority 7 in a concrete body. -/
theorem add_body_priority_clamped_witness :
    (cmd_add_body ("x") none none none (some 7)).priority = some (clampPriority (some 7)) ∧
    clampPriority (some 7) = 4 :=
  ⟨(add_body_priority_clamped ("x") none none none (some 7)).1,
   (add_body_priority_clamped ("x") none none none (some 7)).2.2.2.2.2 7 (by norm_num)⟩
